import Mathlib

/-!
Shallow embedding of the n8n Azure Managed Identity credential
(`AzureManagedIdentityApi.credentials.ts`) and validation node
(`AzureManagedIdentityValidate.node.ts`).

JavaScript platform semantics are modelled explicitly:
* a JS `Map<string, V>` / plain object is an ordered association list
  (`jsGet`, `jsSet`, `jsDelete`); `jsSet` replaces the value in place when the
  key is present (JS insertion-order semantics) and appends otherwise;
* the JS number `NaN` produced by a failed `parseInt` is modelled as `none`
  (`Option Int`); every ordered comparison against `NaN` is false in JS, which
  `isNearExpiry` reproduces;
* `process.env.X : string | undefined` is `Option String`; JS truthiness of
  such a value (`undefined` and `""` are falsy) is `truthy`.
-/

set_option autoImplicit false

namespace AzureMI

/-- JS `Map.get` / property read on an ordered association list. -/
def jsGet {α : Type} : List (String × α) → String → Option α
  | [], _ => none
  | (k', v) :: rest, k => if k' = k then some v else jsGet rest k

/-- JS `Map.set` / object-spread update: replace in place when the key is
present (insertion order is kept), append otherwise. -/
def jsSet {α : Type} : List (String × α) → String → α → List (String × α)
  | [], k, v => [(k, v)]
  | (k', v') :: rest, k, v =>
    if k' = k then (k', v) :: rest else (k', v') :: jsSet rest k v

/-- JS `Map.delete`: remove the entry for the key. -/
def jsDelete {α : Type} (m : List (String × α)) (k : String) : List (String × α) :=
  m.filter (fun p => p.1 != k)

/-! ## Token cache (`AzureManagedIdentityApi.credentials.ts`) -/

/-- `interface CachedToken { accessToken: string; expiresOn: number }`.
`expiresOn` is the result of `parseInt(data.expires_on, 10)`, which is `NaN`
(modelled `none`) when the string has no leading decimal digits. -/
structure CachedToken where
  accessToken : String
  expiresOn : Option Int
deriving DecidableEq, Repr

/-- `const TOKEN_REFRESH_MARGIN_S = 300` — refresh 5 min before expiry. -/
def TOKEN_REFRESH_MARGIN_S : Int := 300

/-- The process-wide `tokenCache : Map<string, CachedToken>`, threaded
explicitly through the operations. -/
abbrev TokenCache := List (String × CachedToken)

/-- `getCacheKey(resource, clientId)` returns the template string
`resource|clientId`. -/
def getCacheKey (resource clientId : String) : String :=
  resource ++ "|" ++ clientId

/-- The staleness test `entry.expiresOn - nowS < TOKEN_REFRESH_MARGIN_S` with
JS semantics: when `expiresOn` is `NaN` the comparison is false. -/
def isNearExpiry (expiresOn : Option Int) (nowS : Int) : Bool :=
  match expiresOn with
  | none => false
  | some e => decide (e - nowS < TOKEN_REFRESH_MARGIN_S)

/-- `getCachedToken(resource, clientId)`: read the cache entry; absent gives
`undefined`; a near-expired entry is deleted and `undefined` returned;
otherwise the stored token is returned.  `nowS = Math.floor(Date.now()/1000)`
is the clock read, passed explicitly; the cache state is threaded. -/
def getCachedToken (cache : TokenCache) (resource clientId : String) (nowS : Int) :
    Option String × TokenCache :=
  match jsGet cache (getCacheKey resource clientId) with
  | none => (none, cache)
  | some entry =>
    if isNearExpiry entry.expiresOn nowS then
      (none, jsDelete cache (getCacheKey resource clientId))
    else
      (some entry.accessToken, cache)

/-! ## Token provider -/

/-- The environment configuration read by `fetchToken` on every call:
`process.env.IDENTITY_ENDPOINT` and `process.env.IDENTITY_HEADER`. -/
structure Env where
  identityEndpoint : Option String
  identityHeader : Option String
deriving DecidableEq, Repr

/-- JS truthiness of a `string | undefined` value: `undefined` and the empty
string are falsy. -/
def truthy : Option String → Bool
  | none => false
  | some s => !s.isEmpty

/-- `const IMDS_ENDPOINT = "http://169.254.169.254/metadata/identity/oauth2/token"`. -/
def IMDS_ENDPOINT : String := "http://169.254.169.254/metadata/identity/oauth2/token"

/-- The HTTP request handed to `fetch`: base URL, `URLSearchParams` (an
ordered key-value sequence), headers object, and method. -/
structure HttpRequest where
  url : String
  queryParams : List (String × String)
  headers : List (String × String)
  method : String
deriving DecidableEq, Repr

/-- `fetchTokenFromAppService`: `api-version=2019-08-01` and `resource` query
parameters, `client_id` set only when `clientId` is truthy (non-empty), header
`X-IDENTITY-HEADER`, GET to the configured identity endpoint. -/
def fetchTokenFromAppService (resource clientId identityEndpoint identityHeader : String) :
    HttpRequest :=
  let params := [("api-version", "2019-08-01"), ("resource", resource)]
  let params := if clientId.isEmpty then params else jsSet params "client_id" clientId
  { url := identityEndpoint
    queryParams := params
    headers := [("X-IDENTITY-HEADER", identityHeader)]
    method := "GET" }

/-- `fetchTokenFromImds`: `api-version=2018-02-01` and `resource` query
parameters, `client_id` set only when `clientId` is truthy, header
`Metadata: true`, GET to the fixed IMDS endpoint. -/
def fetchTokenFromImds (resource clientId : String) : HttpRequest :=
  let params := [("api-version", "2018-02-01"), ("resource", resource)]
  let params := if clientId.isEmpty then params else jsSet params "client_id" clientId
  { url := IMDS_ENDPOINT
    queryParams := params
    headers := [("Metadata", "true")]
    method := "GET" }

/-- `const useAppServiceEndpoint = identityEndpoint && identityHeader` — JS
truthiness of the two environment values. -/
def useAppService (env : Env) : Bool :=
  truthy env.identityEndpoint && truthy env.identityHeader

/-- The request `fetchToken` issues, selected fresh from the environment on
every call: the App Service protocol when both environment values are truthy,
the IMDS protocol otherwise.  (When the App Service branch is taken both
options are `some` non-empty strings, so the `getD ""` defaults are never the
values used.) -/
def selectRequest (env : Env) (resource clientId : String) : HttpRequest :=
  if useAppService env then
    fetchTokenFromAppService resource clientId
      (env.identityEndpoint.getD "") (env.identityHeader.getD "")
  else
    fetchTokenFromImds resource clientId

/-- The `Response` object as consumed by `fetchToken`: `ok`, `status`, the
body read by `.text()`, and the JSON body fields `access_token` and
`expires_on` read by `.json()`. -/
structure JsResponse where
  ok : Bool
  status : Nat
  bodyText : String
  access_token : String
  expires_on : String
deriving DecidableEq, Repr

/-- Outcome of the underlying `fetch` call: the promise either rejects
(transport error) or resolves with a response. -/
inductive FetchResult where
  | transportError
  | completed (r : JsResponse)
deriving DecidableEq, Repr

/-- Errors thrown by `fetchToken`: the rejected `fetch` promise propagated
as-is, or the `Error` thrown on a non-success HTTP status. -/
inductive TokenError where
  | transport
  | http (message : String)
deriving DecidableEq, Repr

/-- JS `parseInt(s, 10)`: skip leading whitespace, optional sign, then the
maximal run of decimal digits; `NaN` (modelled `none`) when that run is
empty. -/
def parseIntJs (s : String) : Option Int :=
  let cs := s.toList.dropWhile (fun c => c = ' ' ∨ c = '\t' ∨ c = '\n' ∨ c = '\r')
  let signed : Int × List Char :=
    match cs with
    | '-' :: rest => (-1, rest)
    | '+' :: rest => (1, rest)
    | _ => (1, cs)
  let digits := signed.2.takeWhile Char.isDigit
  if digits.isEmpty then none
  else some (signed.1 * (digits.foldl (fun n c => 10 * n + (c.toNat - '0'.toNat)) 0 : Nat))

/-- `fetchToken(resource, clientId)`: select the endpoint from the
environment, issue the request through `net` (the ambient `fetch`), throw on
transport failure or non-success status, otherwise parse the JSON body, store
the token in the cache and return `access_token`.  The cache state is
threaded; the error paths leave it untouched. -/
def fetchToken (env : Env) (resource clientId : String)
    (net : HttpRequest → FetchResult) (cache : TokenCache) :
    Except TokenError String × TokenCache :=
  match net (selectRequest env resource clientId) with
  | .transportError => (.error .transport, cache)
  | .completed response =>
    if !response.ok then
      let source := if useAppService env then "App Service/Container Apps" else "VM IMDS"
      (.error (.http ("Failed to acquire managed identity token from " ++ source ++
        " (HTTP " ++ toString response.status ++ "): " ++ response.bodyText)), cache)
    else
      let expiresOn := parseIntJs response.expires_on
      (.ok response.access_token,
        jsSet cache (getCacheKey resource clientId)
          { accessToken := response.access_token, expiresOn := expiresOn })

/-! ## `AzureManagedIdentityApi.authenticate` -/

/-- The decrypted credential data: `resource` and the optional `clientId`
(`(credentials.clientId as string) || ''`). -/
structure Credentials where
  resource : String
  clientId : Option String
deriving DecidableEq, Repr

/-- The `IHttpRequestOptions` value: the headers object plus the remaining
request fields, which `authenticate` never touches. -/
structure RequestOptions where
  url : String
  method : String
  headers : List (String × String)
  otherFields : List (String × String)
deriving DecidableEq, Repr

/-- Errors thrown by `authenticate`: the configuration error for a missing
resource, or an error propagated from `fetchToken`. -/
inductive AuthError where
  | configuration (message : String)
  | token (e : TokenError)
deriving DecidableEq, Repr

/-- Result of one `authenticate` call: the returned (or thrown) value, the
cache state afterwards, and how many network calls were made (0 or 1). -/
structure AuthOutcome where
  result : Except AuthError RequestOptions
  cache : TokenCache
  networkCalls : Nat
deriving Repr

/-- `requestOptions.headers = { ...requestOptions.headers, Authorization:
Bearer token }` — all other request fields are copied unchanged. -/
def setAuthHeader (ro : RequestOptions) (token : String) : RequestOptions :=
  { ro with headers := jsSet ro.headers "Authorization" ("Bearer " ++ token) }

/-- `authenticate(credentials, requestOptions)`: throw when `resource` is
falsy; otherwise `getCachedToken(...) ?? await fetchToken(...)`, then set the
`Authorization` header and return the options. -/
def authenticate (env : Env) (credentials : Credentials) (requestOptions : RequestOptions)
    (net : HttpRequest → FetchResult) (cache : TokenCache) (nowS : Int) : AuthOutcome :=
  let resource := credentials.resource
  let clientId := credentials.clientId.getD ""
  if resource.isEmpty then
    { result := .error (.configuration
        "Azure Managed Identity credential: \"Resource / Audience\" is required.")
      cache := cache
      networkCalls := 0 }
  else
    match getCachedToken cache resource clientId nowS with
    | (some token, cache') =>
      { result := .ok (setAuthHeader requestOptions token)
        cache := cache'
        networkCalls := 0 }
    | (none, cache') =>
      match fetchToken env resource clientId net cache' with
      | (.ok token, cache'') =>
        { result := .ok (setAuthHeader requestOptions token)
          cache := cache''
          networkCalls := 1 }
      | (.error e, cache'') =>
        { result := .error (.token e)
          cache := cache''
          networkCalls := 1 }

/-! ## Claims decoder (`AzureManagedIdentityValidate.node.ts`)

`decodeJwtPayload` is `token.split('.')`, a segment-count check, then
`JSON.parse(Buffer.from(parts[1], "base64url").toString())`.  The three
platform functions are modelled below: the lenient Node base64url decoding
(characters outside the alphabet are skipped), `Buffer.toString()` UTF-8
decoding (total, substituting U+FFFD for invalid sequences), and the full
`JSON.parse` grammar. -/

/-- The Unicode replacement character U+FFFD. -/
def replacementChar : Char := '�'

/-- Value of one base64/base64url alphabet character.  The Node base64url
decoder accepts both alphabets ('-' and '+' are 62, '_' and '/' are 63) and
skips every other character, padding included. -/
def b64urlCharVal (c : Char) : Option Nat :=
  if 'A' ≤ c ∧ c ≤ 'Z' then some (c.toNat - 'A'.toNat)
  else if 'a' ≤ c ∧ c ≤ 'z' then some (c.toNat - 'a'.toNat + 26)
  else if '0' ≤ c ∧ c ≤ '9' then some (c.toNat - '0'.toNat + 52)
  else if c = '-' ∨ c = '+' then some 62
  else if c = '_' ∨ c = '/' then some 63
  else none

/-- Reassemble 6-bit values into bytes: each complete group of 4 gives 3
bytes; trailing groups of 2 or 3 give 1 or 2 bytes; a lone trailing value
contributes nothing. -/
def b64Bytes : List Nat → List Nat
  | a :: b :: c :: d :: rest =>
    (a * 4 + b / 16) :: ((b % 16) * 16 + c / 4) :: ((c % 4) * 64 + d) :: b64Bytes rest
  | [a, b] => [a * 4 + b / 16]
  | [a, b, c] => [a * 4 + b / 16, (b % 16) * 16 + c / 4]
  | _ => []

/-- UTF-8 continuation byte test. -/
def isCont (b : Nat) : Bool := 0x80 ≤ b ∧ b ≤ 0xBF

/-- Lower bound on the first continuation byte, excluding overlong encodings
and (for 0xF0) values below U+10000. -/
def utf8FirstContLo (b : Nat) : Nat :=
  if b = 0xE0 then 0xA0 else if b = 0xF0 then 0x90 else 0x80

/-- Upper bound on the first continuation byte, excluding surrogates (0xED)
and values above U+10FFFF (0xF4). -/
def utf8FirstContHi (b : Nat) : Nat :=
  if b = 0xED then 0x9F else if b = 0xF4 then 0x8F else 0xBF

/-- UTF-8 decoding of a byte sequence, as `Buffer.toString()` performs it:
total, substituting U+FFFD for an invalid or truncated sequence (on which
only the lead byte is consumed — this can only multiply the U+FFFD
substitutions relative to Node, never change a valid decoding).  Fuel-indexed
with one lead byte consumed per step, so `length` fuel suffices. -/
def utf8DecodeAux : Nat → List Nat → List Char
  | 0, _ => []
  | _ + 1, [] => []
  | fuel + 1, b :: rest =>
    if b < 0x80 then
      Char.ofNat b :: utf8DecodeAux fuel rest
    else if 0xC2 ≤ b ∧ b ≤ 0xDF then
      match rest with
      | b1 :: rest' =>
        if isCont b1 then
          Char.ofNat ((b - 0xC0) * 64 + (b1 - 0x80)) :: utf8DecodeAux fuel rest'
        else replacementChar :: utf8DecodeAux fuel rest
      | [] => replacementChar :: utf8DecodeAux fuel rest
    else if 0xE0 ≤ b ∧ b ≤ 0xEF then
      match rest with
      | b1 :: b2 :: rest' =>
        if (utf8FirstContLo b ≤ b1 ∧ b1 ≤ utf8FirstContHi b) ∧ isCont b2 then
          Char.ofNat ((b - 0xE0) * 4096 + (b1 - 0x80) * 64 + (b2 - 0x80)) ::
            utf8DecodeAux fuel rest'
        else replacementChar :: utf8DecodeAux fuel rest
      | _ => replacementChar :: utf8DecodeAux fuel rest
    else if 0xF0 ≤ b ∧ b ≤ 0xF4 then
      match rest with
      | b1 :: b2 :: b3 :: rest' =>
        if (utf8FirstContLo b ≤ b1 ∧ b1 ≤ utf8FirstContHi b) ∧ isCont b2 ∧ isCont b3 then
          Char.ofNat ((b - 0xF0) * 262144 + (b1 - 0x80) * 4096 + (b2 - 0x80) * 64 +
            (b3 - 0x80)) :: utf8DecodeAux fuel rest'
        else replacementChar :: utf8DecodeAux fuel rest
      | _ => replacementChar :: utf8DecodeAux fuel rest
    else
      replacementChar :: utf8DecodeAux fuel rest

/-- `Buffer.from(s, "base64url").toString()`. -/
def b64urlDecode (s : String) : String :=
  let bytes := b64Bytes (s.toList.filterMap b64urlCharVal)
  String.mk (utf8DecodeAux bytes.length bytes)

/-- JSON values as produced by `JSON.parse`.  Numbers are modelled exactly as
rationals, which agrees with JS doubles on the integer ranges the claims
exercise.  Objects keep first-occurrence insertion order with last-wins
values for duplicate keys, as JS object construction does. -/
inductive Json where
  | null
  | bool (b : Bool)
  | num (q : Rat)
  | str (s : String)
  | arr (elems : List Json)
  | obj (fields : List (String × Json))

/-- JSON inter-token whitespace. -/
def jsonWs (c : Char) : Bool := c = ' ' ∨ c = '\t' ∨ c = '\n' ∨ c = '\r'

/-- Skip JSON whitespace. -/
def skipWs (cs : List Char) : List Char := cs.dropWhile jsonWs

/-- Value of a hexadecimal digit. -/
def hexVal (c : Char) : Option Nat :=
  if '0' ≤ c ∧ c ≤ '9' then some (c.toNat - '0'.toNat)
  else if 'a' ≤ c ∧ c ≤ 'f' then some (c.toNat - 'a'.toNat + 10)
  else if 'A' ≤ c ∧ c ≤ 'F' then some (c.toNat - 'A'.toNat + 10)
  else none

/-- Parse a JSON string body after the opening quote, accumulating decoded
characters in reverse.  Escapes follow the JSON grammar; a `\uXXXX` surrogate
pair combines into one character, and a lone surrogate (representable in a JS
string, not in a Lean one) becomes U+FFFD.  Fuel-indexed; every step consumes
at least one character, so `length + 1` fuel suffices. -/
def parseStringBody : Nat → List Char → List Char → Option (String × List Char)
  | 0, _, _ => none
  | fuel + 1, acc, cs =>
    match cs with
    | [] => none
    | '"' :: rest => some (String.mk acc.reverse, rest)
    | '\\' :: esc =>
      match esc with
      | '"' :: rest => parseStringBody fuel ('"' :: acc) rest
      | '\\' :: rest => parseStringBody fuel ('\\' :: acc) rest
      | '/' :: rest => parseStringBody fuel ('/' :: acc) rest
      | 'b' :: rest => parseStringBody fuel ('\x08' :: acc) rest
      | 'f' :: rest => parseStringBody fuel ('\x0c' :: acc) rest
      | 'n' :: rest => parseStringBody fuel ('\n' :: acc) rest
      | 'r' :: rest => parseStringBody fuel ('\r' :: acc) rest
      | 't' :: rest => parseStringBody fuel ('\t' :: acc) rest
      | 'u' :: h1 :: h2 :: h3 :: h4 :: rest =>
        match hexVal h1, hexVal h2, hexVal h3, hexVal h4 with
        | some a, some b, some c, some d =>
          let cp := a * 4096 + b * 256 + c * 16 + d
          if 0xD800 ≤ cp ∧ cp ≤ 0xDBFF then
            match rest with
            | '\\' :: 'u' :: g1 :: g2 :: g3 :: g4 :: rest' =>
              match hexVal g1, hexVal g2, hexVal g3, hexVal g4 with
              | some a', some b', some c', some d' =>
                let cp' := a' * 4096 + b' * 256 + c' * 16 + d'
                if 0xDC00 ≤ cp' ∧ cp' ≤ 0xDFFF then
                  parseStringBody fuel
                    (Char.ofNat (65536 + (cp - 0xD800) * 1024 + (cp' - 0xDC00)) :: acc) rest'
                else parseStringBody fuel (replacementChar :: acc) rest
              | _, _, _, _ => parseStringBody fuel (replacementChar :: acc) rest
            | _ => parseStringBody fuel (replacementChar :: acc) rest
          else if 0xDC00 ≤ cp ∧ cp ≤ 0xDFFF then
            parseStringBody fuel (replacementChar :: acc) rest
          else
            parseStringBody fuel (Char.ofNat cp :: acc) rest
        | _, _, _, _ => none
      | _ => none
    | c :: rest =>
      if c.toNat < 32 then none
      else parseStringBody fuel (c :: acc) rest

/-- Numeric value of a run of decimal digits. -/
def digitsToNat (ds : List Char) : Nat :=
  ds.foldl (fun n c => 10 * n + (c.toNat - '0'.toNat)) 0

/-- Parse the optional fraction part `. digits`. -/
def parseFrac (cs : List Char) : Option (List Char × List Char) :=
  match cs with
  | '.' :: rest =>
    let ds := rest.takeWhile Char.isDigit
    if ds.isEmpty then none else some (ds, rest.dropWhile Char.isDigit)
  | _ => some ([], cs)

/-- Parse the optional exponent part `e|E sign? digits`. -/
def parseExp (cs : List Char) : Option (Int × List Char) :=
  match cs with
  | c :: rest =>
    if c = 'e' ∨ c = 'E' then
      let signed : Int × List Char :=
        match rest with
        | '+' :: r => (1, r)
        | '-' :: r => (-1, r)
        | _ => (1, rest)
      let ds := signed.2.takeWhile Char.isDigit
      if ds.isEmpty then none
      else some (signed.1 * (digitsToNat ds : Int), signed.2.dropWhile Char.isDigit)
    else some (0, cs)
  | [] => some (0, [])

/-- The exact rational value `mantissa * 10 ^ exp10`, computed with the core
`Rat` primitives. -/
def jsonNumVal (mantissa exp10 : Int) : Rat :=
  if 0 ≤ exp10 then mkRat (mantissa * Int.pow 10 exp10.toNat) 1
  else mkRat mantissa (Nat.pow 10 (-exp10).toNat)

/-- Parse a JSON number: `-? (0 | [1-9][0-9]*) frac? exp?`, valued exactly as
a rational. -/
def parseNumber (cs : List Char) : Option (Rat × List Char) :=
  let signed : Bool × List Char :=
    match cs with
    | '-' :: rest => (true, rest)
    | _ => (false, cs)
  match signed.2 with
  | [] => none
  | c :: _ =>
    if c.isDigit then
      let intPart : List Char × List Char :=
        if c = '0' then ([c], signed.2.tail)
        else (signed.2.takeWhile Char.isDigit, signed.2.dropWhile Char.isDigit)
      match parseFrac intPart.2 with
      | none => none
      | some (fracDs, cs₂) =>
        match parseExp cs₂ with
        | none => none
        | some (e, cs₃) =>
          let mantissa : Int := (digitsToNat (intPart.1 ++ fracDs) : Nat)
          let mantissa := if signed.1 then -mantissa else mantissa
          some (jsonNumVal mantissa (e - (fracDs.length : Int)), cs₃)
    else none

mutual

/-- Parse one JSON value at the head of the input (leading whitespace
allowed), returning it with the unconsumed remainder. -/
def parseValue : Nat → List Char → Option (Json × List Char)
  | 0, _ => none
  | fuel + 1, cs =>
    match skipWs cs with
    | [] => none
    | c :: rest =>
      if c = '{' then parseMembers fuel [] true rest
      else if c = '[' then parseElements fuel [] true rest
      else if c = '"' then
        match parseStringBody (rest.length + 1) [] rest with
        | none => none
        | some (s, rest') => some (.str s, rest')
      else if c = 't' then
        match rest with
        | 'r' :: 'u' :: 'e' :: rest' => some (.bool true, rest')
        | _ => none
      else if c = 'f' then
        match rest with
        | 'a' :: 'l' :: 's' :: 'e' :: rest' => some (.bool false, rest')
        | _ => none
      else if c = 'n' then
        match rest with
        | 'u' :: 'l' :: 'l' :: rest' => some (.null, rest')
        | _ => none
      else
        match parseNumber (c :: rest) with
        | none => none
        | some (q, rest') => some (.num q, rest')

/-- Parse object members after `{` (or after a member separator when `first`
is false).  Fields accumulate with `jsSet`, reproducing the JS last-wins
semantics for duplicate keys. -/
def parseMembers : Nat → List (String × Json) → Bool → List Char →
    Option (Json × List Char)
  | 0, _, _, _ => none
  | fuel + 1, acc, first, cs =>
    match skipWs cs with
    | [] => none
    | c :: rest =>
      if first ∧ c = '}' then some (.obj acc, rest)
      else if c = '"' then
        match parseStringBody (rest.length + 1) [] rest with
        | none => none
        | some (key, rest₁) =>
          match skipWs rest₁ with
          | ':' :: rest₂ =>
            match parseValue fuel rest₂ with
            | none => none
            | some (v, rest₃) =>
              match skipWs rest₃ with
              | '}' :: rest₄ => some (.obj (jsSet acc key v), rest₄)
              | ',' :: rest₄ => parseMembers fuel (jsSet acc key v) false rest₄
              | _ => none
          | _ => none
      else none

/-- Parse array elements after `[` (or after an element separator when
`first` is false). -/
def parseElements : Nat → List Json → Bool → List Char → Option (Json × List Char)
  | 0, _, _, _ => none
  | fuel + 1, acc, first, cs =>
    match skipWs cs with
    | [] => none
    | c :: rest =>
      if first ∧ c = ']' then some (.arr acc.reverse, rest)
      else
        match parseValue fuel (c :: rest) with
        | none => none
        | some (v, rest₁) =>
          match skipWs rest₁ with
          | ']' :: rest₂ => some (.arr (v :: acc).reverse, rest₂)
          | ',' :: rest₂ => parseElements fuel (v :: acc) false rest₂
          | _ => none

end

/-- `JSON.parse(s)`: parse one value and require only whitespace to remain;
`none` models the thrown `SyntaxError`.  Fuel `2 * length + 8` dominates the
recursion depth, since every two nested calls consume at least one
character. -/
def jsonParse (s : String) : Option Json :=
  match parseValue (2 * s.length + 8) s.toList with
  | none => none
  | some (v, rest) => if (skipWs rest).isEmpty then some v else none

/-- JS `s.split(sep)` for a one-character separator: empty segments are kept
and splitting the empty string gives `[""]`. -/
def splitListOn (sep : Char) : List Char → List (List Char)
  | [] => [[]]
  | c :: rest =>
    let r := splitListOn sep rest
    if c = sep then [] :: r
    else
      match r with
      | seg :: segs => (c :: seg) :: segs
      | [] => [[c]]

/-- JS `s.split(sep)` on strings. -/
def jsSplit (sep : Char) (s : String) : List String :=
  (splitListOn sep s.toList).map String.mk

/-- The error thrown by `decodeJwtPayload`: the explicit `ApplicationError`
guarding the segment count, or the `SyntaxError` that `JSON.parse` throws
when the decoded middle segment is not JSON.  Both are thrown errors the
caller can catch — the failure modes the spec groups as `MalformedTokenError`. -/
inductive DecodeError where
  | applicationError (message : String)
  | syntaxError
deriving DecidableEq, Repr

/-- `decodeJwtPayload(token)`: split on '.', require exactly 3 segments, then
`JSON.parse(Buffer.from(parts[1], "base64url").toString())`. -/
def decodeJwtPayload (token : String) : Except DecodeError Json :=
  let parts := jsSplit '.' token
  if parts.length ≠ 3 then
    .error (.applicationError "Token is not a valid JWT (expected 3 segments)")
  else
    match jsonParse (b64urlDecode ((parts[1]?).getD "")) with
    | none => .error .syntaxError
    | some claims => .ok claims

/-! ## Epoch-to-ISO conversion and the result object of the validation node -/

/-- Zero-pad a number to the given width. -/
def padZeros (width : Nat) (n : Nat) : String :=
  String.mk (List.replicate (width - (toString n).length) '0') ++ toString n

/-- Day number (days since 1970-01-01, possibly negative) to (year, month,
day) in the proleptic Gregorian calendar — the `civil_from_days` algorithm
underlying `Date.prototype.toISOString`. -/
def civilFromDays (z₀ : Int) : Int × Int × Int :=
  let z := z₀ + 719468
  let era := Int.fdiv z 146097
  let doe := z - era * 146097
  let yoe := Int.fdiv (doe - Int.fdiv doe 1460 + Int.fdiv doe 36524 - Int.fdiv doe 146096) 365
  let y := yoe + era * 400
  let doy := doe - (365 * yoe + Int.fdiv yoe 4 - Int.fdiv yoe 100)
  let mp := Int.fdiv (5 * doy + 2) 153
  let d := doy - Int.fdiv (153 * mp + 2) 5 + 1
  let m := if mp < 10 then mp + 3 else mp - 9
  (if m ≤ 2 then y + 1 else y, m, d)

/-- The year field of `toISOString`: four zero-padded digits for 0..9999,
otherwise the expanded `±YYYYYY` form. -/
def isoYear (y : Int) : String :=
  if 0 ≤ y ∧ y ≤ 9999 then padZeros 4 y.toNat
  else if y < 0 then "-" ++ padZeros 6 (-y).toNat
  else "+" ++ padZeros 6 y.toNat

/-- `new Date(e * 1000).toISOString()` for an integer epoch `e` in seconds:
the UTC rendering with a fixed `.000Z` milliseconds field.  (JS throws a
`RangeError` outside ±8.64e15 ms; the claims stay well inside that range,
where this model is exact.) -/
def isoOfEpoch (e : Int) : String :=
  let days := Int.fdiv e 86400
  let sod := (e - days * 86400).toNat
  let ymd := civilFromDays days
  isoYear ymd.1 ++ "-" ++ padZeros 2 ymd.2.1.toNat ++ "-" ++ padZeros 2 ymd.2.2.toNat ++
    "T" ++ padZeros 2 (sod / 3600) ++ ":" ++ padZeros 2 (sod % 3600 / 60) ++ ":" ++
    padZeros 2 (sod % 60) ++ ".000Z"

/-- `epochToIso(epoch)`: `undefined` maps to `undefined`, a number to its ISO
string.  Modelled for integer epochs (the shape of JWT epoch claims);
non-integer values would add a fractional-millisecond field and are outside
this model. -/
def epochToIso (epoch : Option Int) : Option String :=
  match epoch with
  | none => none
  | some e => some (isoOfEpoch e)

/-- JS property read `claims.x` on the decoded payload: a field of an object,
`undefined` otherwise.  (Reading a property of a `null` payload throws in JS;
no claim exercises a non-object payload and it is modelled as `undefined`.) -/
def getClaim (claims : Json) (name : String) : Option Json :=
  match claims with
  | .obj fields => jsGet fields name
  | _ => none

/-- The value of an epoch claim when it is an integer-valued JSON number —
the only shape for which `epochToIso` is modelled. -/
def epochClaim (claims : Json) (name : String) : Option Int :=
  match getClaim claims name with
  | some (.num q) => if q.den = 1 then some q.num else none
  | _ => none

/-- The `result` object assembled by `AzureManagedIdentityValidate.execute`:
every base key is always present, an absent claim giving an `undefined`
value (`none`), which `JSON.stringify` drops; `accessToken` is appended only
when `includeToken` is true. -/
def buildResult (claims : Json) (token : String) (includeToken : Bool) :
    List (String × Option Json) :=
  let result : List (String × Option Json) :=
    [("success", some (.bool true)),
     ("audience", getClaim claims "aud"),
     ("issuer", getClaim claims "iss"),
     ("tenantId", getClaim claims "tid"),
     ("objectId", getClaim claims "oid"),
     ("appId", getClaim claims "appid"),
     ("subject", getClaim claims "sub"),
     ("identityType", getClaim claims "idtyp"),
     ("tokenVersion", getClaim claims "ver"),
     ("issuedAt", (epochToIso (epochClaim claims "iat")).map Json.str),
     ("notBefore", (epochToIso (epochClaim claims "nbf")).map Json.str),
     ("expiresAt", (epochToIso (epochClaim claims "exp")).map Json.str),
     ("managedIdentityResourceId", getClaim claims "xms_mirid")]
  if includeToken then result ++ [("accessToken", some (.str token))] else result

/-- Observable value of a result field: `none` both when the key is absent
and when its value is `undefined` — exactly the fields missing from the JSON
serialization of the output. -/
def resultGet (r : List (String × Option Json)) (k : String) : Option Json :=
  (jsGet r k).bind id

/-- The non-epoch claims and the result fields they populate. -/
def claimFieldPairs : List (String × String) :=
  [("aud", "audience"), ("iss", "issuer"), ("tid", "tenantId"), ("oid", "objectId"),
   ("appid", "appId"), ("sub", "subject"), ("idtyp", "identityType"),
   ("ver", "tokenVersion"), ("xms_mirid", "managedIdentityResourceId")]

/-- The epoch claims and the ISO-8601 result fields they populate. -/
def epochFieldPairs : List (String × String) :=
  [("iat", "issuedAt"), ("nbf", "notBefore"), ("exp", "expiresAt")]

/-! ## Association-list lemmas -/

theorem jsGet_jsSet_self {α : Type} (m : List (String × α)) (k : String) (v : α) :
    jsGet (jsSet m k v) k = some v := by
  induction m with
  | nil => simp [jsSet, jsGet]
  | cons hd tl ih =>
    obtain ⟨k', v'⟩ := hd
    by_cases h : k' = k <;> simp [jsSet, jsGet, h, ih]

theorem jsGet_jsSet_other {α : Type} (m : List (String × α)) (k k' : String) (v : α)
    (h : k' ≠ k) : jsGet (jsSet m k v) k' = jsGet m k' := by
  induction m with
  | nil =>
    simp only [jsSet, jsGet, if_neg (Ne.symm h)]
  | cons hd tl ih =>
    obtain ⟨k₀, v₀⟩ := hd
    by_cases h₀ : k₀ = k <;> by_cases h₁ : k₀ = k' <;>
      simp_all [jsSet, jsGet]

theorem jsGet_jsDelete_self {α : Type} (m : List (String × α)) (k : String) :
    jsGet (jsDelete m k) k = none := by
  induction m with
  | nil => simp [jsDelete, jsGet]
  | cons hd tl ih =>
    obtain ⟨k', v'⟩ := hd
    by_cases h : k' = k <;>
      simp [jsDelete, List.filter_cons, h, jsGet] at ih ⊢ <;> exact ih

theorem isEmpty_eq_false_of_ne {s : String} (h : s ≠ "") : s.isEmpty = false := by
  cases hb : s.isEmpty with
  | false => rfl
  | true => exact absurd ((String.isEmpty_iff s).mp hb) h

theorem isEmpty_empty_string : ("" : String).isEmpty = true := rfl

/-! ## Claim theorems -/

/-- C1: for every cache entry under key (resource, clientId) with an integer
expiry, `getCachedToken` returns the stored token when `expiresOn - now` is
at least the 300-second margin; when the remaining lifetime is less than 300
seconds (already-expired entries included) it deletes the entry — absent
afterwards — and returns absent; and the boundary of exactly 300 remaining
seconds falls on the returned side, decided by the strict less-than
comparison. -/
theorem C1_cache_lookup_margin (cache : TokenCache) (resource clientId : String)
    (nowS e : Int) (entry : CachedToken)
    (hget : jsGet cache (getCacheKey resource clientId) = some entry)
    (hexp : entry.expiresOn = some e) :
    (TOKEN_REFRESH_MARGIN_S ≤ e - nowS →
      getCachedToken cache resource clientId nowS = (some entry.accessToken, cache)) ∧
    (e - nowS < TOKEN_REFRESH_MARGIN_S →
      getCachedToken cache resource clientId nowS =
        (none, jsDelete cache (getCacheKey resource clientId)) ∧
      jsGet (jsDelete cache (getCacheKey resource clientId))
        (getCacheKey resource clientId) = none) ∧
    (e - nowS = TOKEN_REFRESH_MARGIN_S →
      getCachedToken cache resource clientId nowS = (some entry.accessToken, cache)) := by
  have hm : TOKEN_REFRESH_MARGIN_S = 300 := rfl
  refine ⟨fun h => ?_, fun h => ⟨?_, jsGet_jsDelete_self _ _⟩, fun h => ?_⟩ <;>
    rw [hm] at h <;>
    simp [getCachedToken, hget, isNearExpiry, hexp, TOKEN_REFRESH_MARGIN_S] <;>
    omega

/-- C1 witness: a stored entry with exactly 300 seconds of remaining lifetime
is returned unchanged. -/
theorem C1_cache_lookup_margin_witness :
    getCachedToken [(getCacheKey "r" "", ⟨"tok", some 1000⟩)] "r" "" 700 =
      (some "tok", [(getCacheKey "r" "", ⟨"tok", some 1000⟩)]) :=
  (C1_cache_lookup_margin [(getCacheKey "r" "", ⟨"tok", some 1000⟩)] "r" "" 700 1000
    ⟨"tok", some 1000⟩ rfl rfl).2.2 (by decide)

/-- C2: the request `fetchToken` issues — selected afresh from the
environment values read by that very call — is: with IDENTITY_ENDPOINT and
IDENTITY_HEADER both set (non-empty), a GET to the identity endpoint carrying
api-version 2019-08-01 and the X-IDENTITY-HEADER header; with neither set, a
GET to the fixed IMDS endpoint carrying api-version 2018-02-01 and the
`Metadata: true` header; under both protocols the client_id query parameter
is present exactly when clientId is non-empty.  The last conjunct states that
`fetchToken` consults the network at that selected request only. -/
theorem C2_endpoint_selection (resource clientId : String) :
    (∀ ep hd : String, ep ≠ "" → hd ≠ "" →
      selectRequest ⟨some ep, some hd⟩ resource clientId =
        { url := ep
          queryParams := [("api-version", "2019-08-01"), ("resource", resource)] ++
            (if clientId = "" then [] else [("client_id", clientId)])
          headers := [("X-IDENTITY-HEADER", hd)]
          method := "GET" }) ∧
    (selectRequest ⟨none, none⟩ resource clientId =
        { url := IMDS_ENDPOINT
          queryParams := [("api-version", "2018-02-01"), ("resource", resource)] ++
            (if clientId = "" then [] else [("client_id", clientId)])
          headers := [("Metadata", "true")]
          method := "GET" }) ∧
    (∀ env net net' cache,
      net (selectRequest env resource clientId) = net' (selectRequest env resource clientId) →
      fetchToken env resource clientId net cache = fetchToken env resource clientId net' cache) := by
  refine ⟨fun ep hd hep hhd => ?_, ?_, fun env net net' cache hn => ?_⟩
  · by_cases hc : clientId = ""
    · simp [selectRequest, useAppService, truthy, fetchTokenFromAppService, jsSet, hc,
        isEmpty_eq_false_of_ne hep, isEmpty_eq_false_of_ne hhd, isEmpty_empty_string]
    · simp [selectRequest, useAppService, truthy, fetchTokenFromAppService, jsSet, hc,
        isEmpty_eq_false_of_ne hep, isEmpty_eq_false_of_ne hhd, isEmpty_eq_false_of_ne hc]
  · by_cases hc : clientId = ""
    · simp [selectRequest, useAppService, truthy, fetchTokenFromImds, jsSet, hc,
        isEmpty_empty_string]
    · simp [selectRequest, useAppService, truthy, fetchTokenFromImds, jsSet, hc,
        isEmpty_eq_false_of_ne hc]
  · unfold fetchToken
    rw [hn]

/-- C2 witness: with both environment values set and a non-empty clientId the
App Service request carries api-version 2019-08-01, the identity header and
the client_id parameter. -/
theorem C2_endpoint_selection_witness :
    selectRequest ⟨some "http://e", some "h"⟩ "res" "cid" =
      { url := "http://e"
        queryParams := [("api-version", "2019-08-01"), ("resource", "res"),
          ("client_id", "cid")]
        headers := [("X-IDENTITY-HEADER", "h")]
        method := "GET" } := by
  have h := (C2_endpoint_selection "res" "cid").1 "http://e" "h" (by decide) (by decide)
  simpa using h

/-- C5: a completed response with a non-success status makes `fetchToken`
fail with exactly the message `Failed to acquire managed identity token from
{source} (HTTP {status}): {body}`, the body being the text of the response
and the source naming App Service/Container Apps or VM IMDS according to the
protocol selected; the cache is left unchanged. -/
theorem C5_error_message (env : Env) (resource clientId : String)
    (net : HttpRequest → FetchResult) (cache : TokenCache) (resp : JsResponse)
    (hnet : net (selectRequest env resource clientId) = .completed resp)
    (hok : resp.ok = false) :
    fetchToken env resource clientId net cache =
      (.error (.http ("Failed to acquire managed identity token from " ++
        (if useAppService env then "App Service/Container Apps" else "VM IMDS") ++
        " (HTTP " ++ toString resp.status ++ "): " ++ resp.bodyText)), cache) := by
  simp [fetchToken, hnet, hok]

/-- C5 witness: a 403 Forbidden from the IMDS protocol produces the exact
error string. -/
theorem C5_error_message_witness :
    fetchToken ⟨none, none⟩ "r" "" (fun _ => .completed ⟨false, 403, "Forbidden", "", ""⟩) [] =
      (.error (.http
        "Failed to acquire managed identity token from VM IMDS (HTTP 403): Forbidden"), []) := by
  have h := C5_error_message ⟨none, none⟩ "r" ""
    (fun _ => .completed ⟨false, 403, "Forbidden", "", ""⟩) [] ⟨false, 403, "Forbidden", "", ""⟩
    rfl rfl
  simpa using h

/-- C9: a success response whose `expires_on` does not parse as an integer
(`parseInt` yielding NaN) is still cached, with the NaN expiry modelled as
`none`; every subsequent lookup for that key then returns the token as fresh
— the JS comparison `NaN - now < 300` is false — so the entry is never
lazily evicted and the 5-minute margin does not apply to it. -/
theorem C9_nan_expiry_never_evicted (env : Env) (resource clientId : String)
    (net : HttpRequest → FetchResult) (cache : TokenCache) (resp : JsResponse)
    (hnet : net (selectRequest env resource clientId) = .completed resp)
    (hok : resp.ok = true)
    (hparse : parseIntJs resp.expires_on = none) :
    (fetchToken env resource clientId net cache).1 = .ok resp.access_token ∧
    jsGet (fetchToken env resource clientId net cache).2 (getCacheKey resource clientId) =
      some ⟨resp.access_token, none⟩ ∧
    ∀ nowS : Int,
      getCachedToken (fetchToken env resource clientId net cache).2 resource clientId nowS =
        (some resp.access_token, (fetchToken env resource clientId net cache).2) := by
  have hstore : (fetchToken env resource clientId net cache).2 =
      jsSet cache (getCacheKey resource clientId) ⟨resp.access_token, none⟩ := by
    simp [fetchToken, hnet, hok, hparse]
  refine ⟨by simp [fetchToken, hnet, hok], ?_, fun nowS => ?_⟩
  · rw [hstore]
    exact jsGet_jsSet_self _ _ _
  · rw [hstore]
    simp [getCachedToken, jsGet_jsSet_self, isNearExpiry]

/-- C9 witness: `expires_on = "not-a-number"` is cached with a NaN expiry and
looked up as fresh arbitrarily far in the future. -/
theorem C9_nan_expiry_never_evicted_witness :
    getCachedToken (fetchToken ⟨none, none⟩ "r" ""
        (fun _ => .completed ⟨true, 200, "", "tok", "not-a-number"⟩) []).2 "r" "" 999999999 =
      (some "tok", (fetchToken ⟨none, none⟩ "r" ""
        (fun _ => .completed ⟨true, 200, "", "tok", "not-a-number"⟩) []).2) :=
  (C9_nan_expiry_never_evicted ⟨none, none⟩ "r" ""
    (fun _ => .completed ⟨true, 200, "", "tok", "not-a-number"⟩) []
    ⟨true, 200, "", "tok", "not-a-number"⟩ rfl rfl rfl).2.2 999999999

/-- C10: whenever `fetchToken` fails — the underlying fetch throwing, or a
non-success HTTP status — the token cache mapping is left unchanged; the
cache write happens only on the success path, after the body is parsed. -/
theorem C10_failed_fetch_preserves_cache (env : Env) (resource clientId : String)
    (net : HttpRequest → FetchResult) (cache : TokenCache) :
    ∀ e : TokenError, (fetchToken env resource clientId net cache).1 = .error e →
      (fetchToken env resource clientId net cache).2 = cache := by
  intro e he
  cases hn : net (selectRequest env resource clientId) with
  | transportError => simp [fetchToken, hn]
  | completed resp =>
    by_cases hok : resp.ok
    · simp [fetchToken, hn, hok] at he
    · simp [fetchToken, hn, hok]

/-- C10 witness: a transport failure leaves a non-empty cache exactly as it
was. -/
theorem C10_failed_fetch_preserves_cache_witness :
    (fetchToken ⟨none, none⟩ "r" "" (fun _ => .transportError)
      [(getCacheKey "a" "b", ⟨"t", some 5⟩)]).2 = [(getCacheKey "a" "b", ⟨"t", some 5⟩)] :=
  C10_failed_fetch_preserves_cache ⟨none, none⟩ "r" "" (fun _ => .transportError)
    [(getCacheKey "a" "b", ⟨"t", some 5⟩)] .transport rfl

/-- C3: starting from an empty cache, two consecutive `authenticate` calls
for the same (resource, clientId) make exactly one network fetch between
them when the expiry of the first fetch is 3600 seconds in the future (the second
call being a cache hit as long as it runs within the 3300-second freshness
window), and one fetch each — two in total — when the expiry of the first fetch
is only 100 seconds in the future. -/
theorem C3_consecutive_calls (env : Env) (creds : Credentials) (ro₁ ro₂ : RequestOptions)
    (net net' : HttpRequest → FetchResult) (now₁ now₂ : Int)
    (s : Nat) (b tok es : String)
    (hres : creds.resource ≠ "")
    (hnet : net (selectRequest env creds.resource (creds.clientId.getD "")) =
      .completed ⟨true, s, b, tok, es⟩) :
    (parseIntJs es = some (now₁ + 3600) → now₂ ≤ now₁ + 3300 →
      (authenticate env creds ro₁ net [] now₁).networkCalls = 1 ∧
      (authenticate env creds ro₂ net'
        (authenticate env creds ro₁ net [] now₁).cache now₂).networkCalls = 0) ∧
    (parseIntJs es = some (now₁ + 100) → now₁ ≤ now₂ →
      (authenticate env creds ro₁ net [] now₁).networkCalls = 1 ∧
      (authenticate env creds ro₂ net'
        (authenticate env creds ro₁ net [] now₁).cache now₂).networkCalls = 1) := by
  have hie := isEmpty_eq_false_of_ne hres
  have h1 : authenticate env creds ro₁ net [] now₁ =
      { result := .ok (setAuthHeader ro₁ tok)
        cache := [(getCacheKey creds.resource (creds.clientId.getD ""),
          ⟨tok, parseIntJs es⟩)]
        networkCalls := 1 } := by
    simp [authenticate, hie, getCachedToken, jsGet, fetchToken, hnet, jsSet]
  constructor
  · intro hp hb
    have hfresh : isNearExpiry (some (now₁ + 3600)) now₂ = false := by
      simp [isNearExpiry, TOKEN_REFRESH_MARGIN_S]
      omega
    refine ⟨by rw [h1], ?_⟩
    rw [h1]
    simp [authenticate, hie, getCachedToken, jsGet, hp, hfresh]
  · intro hp hb
    rw [hp] at h1
    have hstale : isNearExpiry (some (now₁ + 100)) now₂ = true := by
      simp [isNearExpiry, TOKEN_REFRESH_MARGIN_S]
      omega
    refine ⟨by rw [h1], ?_⟩
    rw [h1]
    rcases hf : fetchToken env creds.resource (creds.clientId.getD "") net'
        (jsDelete [(getCacheKey creds.resource (creds.clientId.getD ""),
          ⟨tok, some (now₁ + 100)⟩)] (getCacheKey creds.resource (creds.clientId.getD "")))
      with ⟨r, cache''⟩
    cases r <;> simp [authenticate, hie, getCachedToken, jsGet, hstale, hf]

/-- C3 witness: both scenarios at concrete inputs — a +3600s expiry gives a
cache hit on the second call, a +100s expiry forces a second fetch. -/
theorem C3_consecutive_calls_witness :
    ((authenticate ⟨none, none⟩ ⟨"r", none⟩ ⟨"u", "GET", [], []⟩
        (fun _ => .completed ⟨true, 200, "", "t", "4600"⟩) [] 1000).networkCalls = 1 ∧
      (authenticate ⟨none, none⟩ ⟨"r", none⟩ ⟨"u", "GET", [], []⟩
        (fun _ => .completed ⟨true, 200, "", "t", "4600"⟩)
        (authenticate ⟨none, none⟩ ⟨"r", none⟩ ⟨"u", "GET", [], []⟩
          (fun _ => .completed ⟨true, 200, "", "t", "4600"⟩) [] 1000).cache
        1000).networkCalls = 0) ∧
    ((authenticate ⟨none, none⟩ ⟨"r", none⟩ ⟨"u", "GET", [], []⟩
        (fun _ => .completed ⟨true, 200, "", "t", "1100"⟩) [] 1000).networkCalls = 1 ∧
      (authenticate ⟨none, none⟩ ⟨"r", none⟩ ⟨"u", "GET", [], []⟩
        (fun _ => .completed ⟨true, 200, "", "t", "1100"⟩)
        (authenticate ⟨none, none⟩ ⟨"r", none⟩ ⟨"u", "GET", [], []⟩
          (fun _ => .completed ⟨true, 200, "", "t", "1100"⟩) [] 1000).cache
        1000).networkCalls = 1) :=
  ⟨(C3_consecutive_calls ⟨none, none⟩ ⟨"r", none⟩ ⟨"u", "GET", [], []⟩
      ⟨"u", "GET", [], []⟩
      (fun _ => .completed ⟨true, 200, "", "t", "4600"⟩)
      (fun _ => .completed ⟨true, 200, "", "t", "4600"⟩) 1000 1000 200 "" "t" "4600"
      (by decide) rfl).1 (by decide) (by decide),
    (C3_consecutive_calls ⟨none, none⟩ ⟨"r", none⟩ ⟨"u", "GET", [], []⟩
      ⟨"u", "GET", [], []⟩
      (fun _ => .completed ⟨true, 200, "", "t", "1100"⟩)
      (fun _ => .completed ⟨true, 200, "", "t", "1100"⟩) 1000 1000 200 "" "t" "1100"
      (by decide) rfl).2 (by decide) (by decide)⟩

/-- C8: a successful `authenticate` returns the input request options with
the Authorization header set to `Bearer {token}`; every other header keeps
its input value and every non-header field of the options is passed through
unchanged. -/
theorem C8_authorization_sole_mutation (env : Env) (creds : Credentials)
    (ro : RequestOptions) (net : HttpRequest → FetchResult) (cache : TokenCache)
    (nowS : Int) (ro' : RequestOptions)
    (h : (authenticate env creds ro net cache nowS).result = .ok ro') :
    ∃ token : String,
      jsGet ro'.headers "Authorization" = some ("Bearer " ++ token) ∧
      (∀ k, k ≠ "Authorization" → jsGet ro'.headers k = jsGet ro.headers k) ∧
      ro'.url = ro.url ∧ ro'.method = ro.method ∧ ro'.otherFields = ro.otherFields := by
  by_cases hres : creds.resource.isEmpty
  · simp [authenticate, hres] at h
  · rcases hc : getCachedToken cache creds.resource (creds.clientId.getD "") nowS
      with ⟨otok, cache'⟩
    cases otok with
    | some token =>
      have hro : ro' = setAuthHeader ro token := by
        simp [authenticate, hres, hc] at h
        exact h.symm
      subst hro
      exact ⟨token, jsGet_jsSet_self _ _ _,
        fun k hk => jsGet_jsSet_other _ _ _ _ hk, rfl, rfl, rfl⟩
    | none =>
      rcases hf : fetchToken env creds.resource (creds.clientId.getD "") net cache'
        with ⟨r, cache''⟩
      cases r with
      | ok token =>
        have hro : ro' = setAuthHeader ro token := by
          simp [authenticate, hres, hc, hf] at h
          exact h.symm
        subst hro
        exact ⟨token, jsGet_jsSet_self _ _ _,
          fun k hk => jsGet_jsSet_other _ _ _ _ hk, rfl, rfl, rfl⟩
      | error e =>
        simp [authenticate, hres, hc, hf] at h

/-- C8 witness: a cache-hit `authenticate` call appends the Authorization
header to the input headers. -/
theorem C8_authorization_sole_mutation_witness :
    ∃ token : String,
      jsGet [("Accept", "json"), ("Authorization", "Bearer tok")] "Authorization" =
        some ("Bearer " ++ token) := by
  obtain ⟨t, h1, -, -, -, -⟩ := C8_authorization_sole_mutation ⟨none, none⟩ ⟨"r", some "c"⟩
    ⟨"https://example.com", "GET", [("Accept", "json")], [("qs", "x")]⟩
    (fun _ => .transportError) [(getCacheKey "r" "c", ⟨"tok", some 1000000000⟩)] 0
    ⟨"https://example.com", "GET", [("Accept", "json"), ("Authorization", "Bearer tok")],
      [("qs", "x")]⟩ rfl
  exact ⟨t, h1⟩

/-- C4: the assembled validation output holds the raw token exactly when the
includeToken flag is true, and then verbatim in the accessToken field.  With
the flag false the output object is one and the same for every token value —
so neither any field nor the full JSON serialization of the output can
contain the raw token string, which occurs nowhere in it — and the
accessToken key is absent altogether. -/
theorem C4_raw_token_exposure (claims : Json) (token token' : String) :
    jsGet (buildResult claims token true) "accessToken" = some (some (.str token)) ∧
    buildResult claims token false = buildResult claims token' false ∧
    jsGet (buildResult claims token false) "accessToken" = none :=
  ⟨rfl, rfl, rfl⟩

/-- C6: `decodeJwtPayload` fails — with the segment-count `ApplicationError`
or the `SyntaxError` of `JSON.parse`, the failure modes the spec groups as
MalformedTokenError — exactly when the token does not split on '.' into
three segments, or when the middle segment does not base64url-decode (under
the lenient Node decoder) to a string that parses as JSON; on every other
input it returns the claims normally, never crashing the caller. -/
theorem C6_decode_malformed (token : String) :
    (∃ e, decodeJwtPayload token = .error e) ↔
      ((jsSplit '.' token).length ≠ 3 ∨
        jsonParse (b64urlDecode (((jsSplit '.' token)[1]?).getD "")) = none) := by
  unfold decodeJwtPayload
  by_cases h3 : (jsSplit '.' token).length = 3
  · simp only [h3, if_neg (by omega : ¬(3 : Nat) ≠ 3)]
    cases hp : jsonParse (b64urlDecode (((jsSplit '.' token)[1]?).getD "")) <;> simp [hp, h3]
  · simp [h3]

theorem resultGet_claim_field (claims : Json) (tok : String) (flag : Bool)
    (nm fd : String) (hmem : (nm, fd) ∈ claimFieldPairs) :
    resultGet (buildResult claims tok flag) fd = getClaim claims nm := by
  fin_cases hmem <;> cases flag <;> rfl

theorem resultGet_epoch_field (claims : Json) (tok : String) (flag : Bool)
    (nm fd : String) (hmem : (nm, fd) ∈ epochFieldPairs) :
    resultGet (buildResult claims tok flag) fd =
      (epochToIso (epochClaim claims nm)).map Json.str := by
  fin_cases hmem <;> cases flag <;> rfl

/-- C7: for a well-formed three-segment token whose middle segment decodes
to a JSON payload, the decoder returns the raw claims (epoch claims still
numeric — the ISO conversion is the separate pure `epochToIso` step applied
during output assembly), each present integer epoch claim maps to its
ISO-8601 rendering (1700000000 to 2023-11-14T22:13:20.000Z), and every claim
absent from the payload maps to an absent output field, never a substituted
default. -/
theorem C7_epoch_claims_iso (token hSeg pSeg sSeg : String) (claims : Json)
    (tok : String) (flag : Bool)
    (hsplit : jsSplit '.' token = [hSeg, pSeg, sSeg])
    (hparse : jsonParse (b64urlDecode pSeg) = some claims) :
    decodeJwtPayload token = .ok claims ∧
    (∀ e : Int, epochClaim claims "iat" = some e →
      resultGet (buildResult claims tok flag) "issuedAt" = some (.str (isoOfEpoch e))) ∧
    (∀ e : Int, epochClaim claims "nbf" = some e →
      resultGet (buildResult claims tok flag) "notBefore" = some (.str (isoOfEpoch e))) ∧
    (∀ e : Int, epochClaim claims "exp" = some e →
      resultGet (buildResult claims tok flag) "expiresAt" = some (.str (isoOfEpoch e))) ∧
    (∀ pr ∈ claimFieldPairs, getClaim claims pr.1 = none →
      resultGet (buildResult claims tok flag) pr.2 = none) ∧
    (∀ pr ∈ epochFieldPairs, getClaim claims pr.1 = none →
      resultGet (buildResult claims tok flag) pr.2 = none) ∧
    isoOfEpoch 1700000000 = "2023-11-14T22:13:20.000Z" := by
  refine ⟨?_, fun e he => ?_, fun e he => ?_, fun e he => ?_, ?_, ?_, by decide⟩
  · simp [decodeJwtPayload, hsplit, hparse]
  · rw [resultGet_epoch_field claims tok flag "iat" "issuedAt" (by simp [epochFieldPairs]), he]
    rfl
  · rw [resultGet_epoch_field claims tok flag "nbf" "notBefore" (by simp [epochFieldPairs]), he]
    rfl
  · rw [resultGet_epoch_field claims tok flag "exp" "expiresAt" (by simp [epochFieldPairs]), he]
    rfl
  · intro pr hpr hnone
    rw [resultGet_claim_field claims tok flag pr.1 pr.2 hpr]
    exact hnone
  · intro pr hpr hnone
    rw [resultGet_epoch_field claims tok flag pr.1 pr.2 hpr]
    have hnum : epochClaim claims pr.1 = none := by
      simp [epochClaim, hnone]
    rw [hnum]
    rfl

/-- C7 witness: a concrete three-segment token with payload
`{"aud":"x","iat":1700000000}` decodes to the numeric claims, the issuedAt
field renders as 2023-11-14T22:13:20.000Z, and the absent tid claim leaves
tenantId absent. -/
theorem C7_epoch_claims_iso_witness :
    decodeJwtPayload
        "eyJhbGciOiJSUzI1NiIsInR5cCI6IkpXVCJ9.eyJhdWQiOiJ4IiwiaWF0IjoxNzAwMDAwMDAwfQ.sig" =
      .ok (.obj [("aud", Json.str "x"), ("iat", Json.num 1700000000)]) ∧
    resultGet (buildResult (.obj [("aud", Json.str "x"), ("iat", Json.num 1700000000)])
      "t" false) "issuedAt" = some (.str "2023-11-14T22:13:20.000Z") ∧
    resultGet (buildResult (.obj [("aud", Json.str "x"), ("iat", Json.num 1700000000)])
      "t" false) "tenantId" = none := by
  have h := C7_epoch_claims_iso
    "eyJhbGciOiJSUzI1NiIsInR5cCI6IkpXVCJ9.eyJhdWQiOiJ4IiwiaWF0IjoxNzAwMDAwMDAwfQ.sig"
    "eyJhbGciOiJSUzI1NiIsInR5cCI6IkpXVCJ9" "eyJhdWQiOiJ4IiwiaWF0IjoxNzAwMDAwMDAwfQ" "sig"
    (.obj [("aud", Json.str "x"), ("iat", Json.num 1700000000)]) "t" false
    (by rfl) (by rfl)
  refine ⟨h.1, ?_, ?_⟩
  · have h2 := h.2.1 1700000000 (by rfl)
    rw [h.2.2.2.2.2.2] at h2
    exact h2
  · exact h.2.2.2.2.1 ("tid", "tenantId") (by simp [claimFieldPairs]) rfl

end AzureMI
